import Mathlib

/-!
Shallow embedding of the NnA301023/insightify repository.

The repository has two Python sources:
  * `src/transform.py` — a one-shot enricher that joins the Orders sheet with
    the Returns sheet (set membership → `is_retention`) and the People sheet
    (region → regional manager dictionary lookup → `region_manager`).
  * `src/app.py` — a dashboard over the enriched table: a year filter,
    year-over-year percentage-change series (`get_per_year_change`), KPI
    metrics and chart-data shaping functions.

Machine floats are modelled by `PFloat`: either an exact rational or one of
the special values `inf`, `negInf`, `nan`, which is what pandas produces for
divisions by a zero base in `Series.pct_change`.  Tables are lists of rows;
`pandas.groupby` sorts group keys ascending, modelled with `insertionSort`.
-/

/-- Model of a pandas float cell: an exact rational or a special value. -/
inductive PFloat where
  | num (q : ℚ)
  | inf
  | negInf
  | nan
deriving DecidableEq

/-- Model of `pd.notnull` on a float: false exactly on NaN. -/
def pfNotNull : PFloat → Bool
  | .nan => false
  | _ => true

/-- Multiplication by the positive constant 100 (`pct_change() * 100`). -/
def pfMul100 : PFloat → PFloat
  | .num q => .num (q * 100)
  | .inf => .inf
  | .negInf => .negInf
  | .nan => .nan

/-- Model of `Series.fillna(0)` on one cell: NaN becomes 0, all else kept. -/
def pfFillNa0 : PFloat → PFloat
  | .nan => .num 0
  | x => x

/-- Fixed-point rendering of a rational with one decimal digit, as Python's
`f"{x:.1f}"` does for a float (rounding to the nearest tenth). -/
def fmtOneDec (q : ℚ) : String :=
  let n : ℤ := round (q * 10)
  let s := if n < 0 then "-" else ""
  s ++ toString (n.natAbs / 10) ++ "." ++ toString (n.natAbs % 10)

/-- Rendering of a `PFloat` the way `f"{x:.1f}"` renders a Python float. -/
def pfFmt1 : PFloat → String
  | .num q => fmtOneDec q
  | .inf => "inf"
  | .negInf => "-inf"
  | .nan => "nan"

/-- Model of the formatting lambda of `get_per_year_change`:
`lambda x: f"{x:.1f}%" if pd.notnull(x) else 'NaN'`. -/
def fmtCell (x : PFloat) : String :=
  if pfNotNull x then pfFmt1 x ++ "%" else "NaN"

/-- Model of one step of `Series.pct_change`: `(curr - prev) / prev` in float
semantics, so a zero base yields `inf`, `-inf` or `nan`. -/
def pctChange (prev curr : ℚ) : PFloat :=
  if prev = 0 then
    if curr = 0 then .nan else if 0 < curr then .inf else .negInf
  else
    .num ((curr - prev) / prev)

/-- Tail of `Series.pct_change`: each value compared with its predecessor. -/
def pctChangeAux (prev : ℚ) : List ℚ → List PFloat
  | [] => []
  | c :: cs => pctChange prev c :: pctChangeAux c cs

/-- Model of `Series.pct_change`: the first entry is NaN, each later entry is
the relative change with respect to its predecessor. -/
def pctChangeList : List ℚ → List PFloat
  | [] => []
  | v :: vs => .nan :: pctChangeAux v vs

/-- Full per-entry pipeline of `get_per_year_change` after `pct_change`:
multiply by 100, `fillna(0)`, then format. -/
def deltaF (x : PFloat) : String :=
  fmtCell (pfFillNa0 (pfMul100 x))

/-- Calendar date at day granularity: a serial day number together with its
calendar year and month (what `.dt.days`, `.dt.year` and `.dt.month` read). -/
structure Date where
  days : ℤ
  year : ℤ
  month : ℕ
deriving DecidableEq

/-- One raw line item of the Orders sheet as read by `load_data`, before the
derived `year` / `days to ship` columns are added. -/
structure RawRow where
  orderId : String
  orderDate : Date
  shipDate : Date
  region : String
  segment : String
  category : String
  productName : String
  sales : ℚ
  profit : ℚ
deriving DecidableEq

/-- One row of the dashboard table after `load_data` preprocessing.  `month`
and `monthNum` model the `Month` / `Month_num` columns that
`create_monthly_sales_trend` writes into the table (absent = `none`). -/
structure Row where
  orderId : String
  orderDate : Date
  shipDate : Date
  region : String
  segment : String
  category : String
  productName : String
  sales : ℚ
  profit : ℚ
  year : ℤ
  daysToShip : ℕ
  month : Option String := none
  monthNum : Option ℕ := none
deriving DecidableEq

/-- Per-row preprocessing of `load_data`:
`df['year'] = to_datetime(df['Order Date']).dt.year` and
`df['days to ship'] = abs(to_datetime(Ship Date) - to_datetime(Order Date)).dt.days`. -/
def loadRow (r : RawRow) : Row :=
  { orderId := r.orderId
    orderDate := r.orderDate
    shipDate := r.shipDate
    region := r.region
    segment := r.segment
    category := r.category
    productName := r.productName
    sales := r.sales
    profit := r.profit
    year := r.orderDate.year
    daysToShip := (r.shipDate.days - r.orderDate.days).natAbs }

/-- Aggregation verb passed to `.agg([metric])`. -/
inductive Agg where
  | sum
  | count
deriving DecidableEq

/-- Aggregation of one group of rows.  `count` counts the non-null entries of
the selected column; no column of this dataset is ever null, so it is the row
count, independent of the selected column. -/
def aggCol (agg : Agg) (val : Row → ℚ) (rows : List Row) : ℚ :=
  match agg with
  | .sum => (rows.map val).sum
  | .count => rows.length

/-- Index of `df.groupby('year')`: the distinct years, sorted ascending. -/
def yearsOf (df : List Row) : List ℤ :=
  ((df.map Row.year).dedup).insertionSort (· ≤ ·)

/-- Aggregated metric value of one year group, `df.groupby('year')[col].agg([metric])[metric]` at label `y`. -/
def yearAgg (agg : Agg) (val : Row → ℚ) (df : List Row) (y : ℤ) : ℚ :=
  aggCol agg val (df.filter (fun r => r.year == y))

/-- Model of `get_per_year_change(col, df, metric)` from `src/app.py`:
group by year, aggregate, `pct_change() * 100`, `fillna(0)`, then format each
entry.  The result is the year-indexed series of delta strings. -/
def get_per_year_change (val : Row → ℚ) (df : List Row) (agg : Agg) : List (ℤ × String) :=
  (yearsOf df).zip ((pctChangeList ((yearsOf df).map (yearAgg agg val df))).map deltaF)

/-- Label-based lookup in a year-indexed series (`Series.get` / `.loc`). -/
def seriesGet (s : List (ℤ × String)) (y : ℤ) : Option String :=
  (s.find? (fun p => p.1 == y)).map (·.2)

/-- Model of `load_data`: preprocess every row and build the three
year-over-year change series (Sales sum, Profit sum, Order ID count).  The
value extractor of the count series is irrelevant: `count` only counts rows. -/
def load_data (raw : List RawRow) : List Row × List (ℤ × String) × List (ℤ × String) × List (ℤ × String) :=
  let df := raw.map loadRow
  (df,
   get_per_year_change Row.sales df .sum,
   get_per_year_change Row.profit df .sum,
   get_per_year_change (fun _ => 0) df .count)

/-- State of the year selector: `"All"` or one concrete year. -/
inductive YearSel where
  | all
  | year (y : ℤ)
deriving DecidableEq

/-- Model of `filter_data(df, selected_year)` from `src/app.py`. -/
def filter_data (df : List Row) : YearSel → List Row
  | .all => df
  | .year y => df.filter (fun r => r.year == y)

/-!  Lemmas about the year-over-year delta calculator. -/

lemma yearsOf_sorted (df : List Row) : List.Sorted (· < ·) (yearsOf df) := by
  have hs : List.Sorted (· ≤ ·) (yearsOf df) := List.sorted_insertionSort _ _
  have hn : (yearsOf df).Nodup :=
    ((List.perm_insertionSort _ _).nodup_iff).mpr (List.nodup_dedup _)
  exact hs.lt_of_le hn

lemma mem_yearsOf (df : List Row) (z : ℤ) : z ∈ yearsOf df ↔ z ∈ df.map Row.year :=
  ((List.perm_insertionSort _ _).mem_iff).trans (List.mem_dedup)

lemma pfFillNa0_ne_nan (x : PFloat) : pfFillNa0 x ≠ PFloat.nan := by
  cases x <;> simp [pfFillNa0]

lemma deltaF_nan : deltaF PFloat.nan = "0.0%" := by
  norm_num [deltaF, pfMul100, pfFillNa0, fmtCell, pfNotNull, pfFmt1, fmtOneDec, round_eq]
  decide

lemma append_percent_ne (s : String) : s ++ "%" ≠ "NaN" := by
  intro h
  have hd : (s ++ "%").data = "NaN".data := congrArg String.data h
  rw [String.data_append] at hd
  have hlast := congrArg List.getLast? hd
  rw [List.getLast?_concat] at hlast
  exact absurd hlast (by decide)

/-- Within the zipped year/delta series, the entry of a year `y` whose
predecessor year `y - 1` is also present is the formatted percentage change
between the aggregated values of `y - 1` and `y`. -/
lemma find_zip_pct (t : List ℤ) : ∀ (a y : ℤ) (m : ℤ → ℚ),
    List.Sorted (· < ·) (a :: t) → y - 1 ∈ a :: t → y ∈ a :: t →
    (t.zip ((pctChangeAux (m a) (t.map m)).map deltaF)).find? (fun p => p.1 == y)
      = some (y, deltaF (pctChange (m (y - 1)) (m y))) := by
  induction t with
  | nil =>
    intro a y m _ h1 h2
    rw [List.mem_singleton] at h1 h2
    omega
  | cons b t ih =>
    intro a y m hs h1 h2
    obtain ⟨ha, hs'⟩ := List.sorted_cons.mp hs
    obtain ⟨hb, _⟩ := List.sorted_cons.mp hs'
    have hab : a < b := ha b (List.mem_cons_self b t)
    simp only [List.map_cons, pctChangeAux, List.zip_cons_cons]
    by_cases hyb : y = b
    · subst hyb
      have hy1 : y - 1 = a := by
        rcases List.mem_cons.mp h1 with h | h
        · exact h
        rcases List.mem_cons.mp h with h | h
        · omega
        · have := hb _ h; omega
      rw [List.find?_cons_of_pos _ (by simp), hy1]
    · have hya : y ≠ a := by
        have hay : a ≤ y - 1 := by
          rcases List.mem_cons.mp h1 with h | h
          · omega
          rcases List.mem_cons.mp h with h | h
          · omega
          · have := hb _ h; omega
        omega
      have h2' : y ∈ b :: t := by
        rcases List.mem_cons.mp h2 with h | h
        · exact absurd h hya
        · exact h
      have h1' : y - 1 ∈ b :: t := by
        rcases List.mem_cons.mp h1 with h | h
        · exfalso
          rcases List.mem_cons.mp h2' with hc | hc
          · exact hyb hc
          · have := hb _ hc; omega
        · exact h
      rw [List.find?_cons_of_neg _ (by simp only [beq_iff_eq]; omega)]
      exact ih b y m hs' h1' h2'

/-!  Concrete tables used by witnesses and counterexamples. -/

/-- Helper for concrete dashboard rows. -/
def mkRow (oid : String) (y : ℤ) (mo : ℕ) (s p : ℚ) (pname : String) : Row :=
  { orderId := oid, orderDate := ⟨100, y, mo⟩, shipDate := ⟨103, y, mo⟩,
    region := "West", segment := "Consumer", category := "Furniture",
    productName := pname, sales := s, profit := p, year := y, daysToShip := 3 }

/-- Two-year table matching the worked example of the spec: yearly sales 100
in 2020 and 150 in 2021. -/
def dfW : List Row := [mkRow "a" 2020 1 100 0 "P", mkRow "b" 2021 2 150 5 "Q"]

/-- Two-year table whose Profit sums are both zero, so the 2021 percentage
change is the float division 0/0, i.e. NaN. -/
def dfZ : List Row := [mkRow "a" 2020 1 100 0 "P", mkRow "b" 2021 2 150 0 "Q"]

lemma dfW_sales_series :
    get_per_year_change Row.sales dfW Agg.sum = [(2020, "0.0%"), (2021, "50.0%")] := by
  norm_num +decide [get_per_year_change, yearsOf, yearAgg, aggCol, dfW, mkRow,
    pctChangeList, pctChangeAux, pctChange, deltaF, fmtCell, pfNotNull, pfFmt1,
    pfFillNa0, pfMul100, fmtOneDec, round_eq, List.insertionSort, List.orderedInsert,
    List.filter_cons]

/-- C1: for every metric column and aggregation verb, and for every year `y` of
the grouped series whose predecessor year `y - 1` is also in the series (and
whose base value is nonzero, so that the claimed ratio is defined), the delta
produced by `get_per_year_change` is `(metric(y) - metric(y-1)) / metric(y-1) * 100`
formatted to one decimal place with a trailing `%`. -/
theorem get_per_year_change_consecutive_delta
    (val : Row → ℚ) (df : List Row) (agg : Agg) (y : ℤ)
    (h1 : y - 1 ∈ yearsOf df) (h2 : y ∈ yearsOf df)
    (h0 : yearAgg agg val df (y - 1) ≠ 0) :
    seriesGet (get_per_year_change val df agg) y =
      some (fmtOneDec ((yearAgg agg val df y - yearAgg agg val df (y - 1))
            / yearAgg agg val df (y - 1) * 100) ++ "%") := by
  have hsorted := yearsOf_sorted df
  cases hys : yearsOf df with
  | nil => rw [hys] at h2; exact absurd h2 (List.not_mem_nil y)
  | cons a t =>
    rw [hys] at h1 h2 hsorted
    obtain ⟨ha, _⟩ := List.sorted_cons.mp hsorted
    have hya : y ≠ a := by
      rcases List.mem_cons.mp h1 with h | h
      · omega
      · have := ha _ h; omega
    unfold seriesGet get_per_year_change
    rw [hys]
    simp only [List.map_cons, pctChangeList, List.zip_cons_cons]
    rw [List.find?_cons_of_neg _ (by simp only [beq_iff_eq]; omega)]
    rw [find_zip_pct t a y (yearAgg agg val df) hsorted h1 h2]
    simp only [pctChange]
    rw [if_neg h0]
    rfl

/-- Witness for C1 at the spec's worked example: metric by year
`{2020 : 100, 2021 : 150}` gives delta `"50.0%"` for 2021. -/
theorem get_per_year_change_consecutive_delta_witness :
    seriesGet (get_per_year_change Row.sales dfW Agg.sum) 2021 = some "50.0%" := by
  have h := get_per_year_change_consecutive_delta Row.sales dfW Agg.sum 2021
    (by decide) (by decide)
    (by norm_num [yearAgg, aggCol, dfW, mkRow, List.filter_cons])
  rw [h]
  norm_num +decide [yearAgg, aggCol, dfW, mkRow, List.filter_cons, fmtOneDec, round_eq]

/-- C3: the earliest year of the grouped series always yields the delta string
`"0.0%"`, for every table, metric and aggregation verb. -/
theorem get_per_year_change_first_year
    (val : Row → ℚ) (df : List Row) (agg : Agg) (y : ℤ)
    (hy : (yearsOf df).head? = some y) :
    seriesGet (get_per_year_change val df agg) y = some "0.0%" ∧ ∀ r ∈ df, y ≤ r.year := by
  cases hys : yearsOf df with
  | nil => rw [hys] at hy; exact absurd hy (by simp)
  | cons a t =>
    rw [hys] at hy
    have hay : a = y := by simpa using hy
    subst hay
    constructor
    · unfold seriesGet get_per_year_change
      rw [hys]
      simp only [List.map_cons, pctChangeList, List.zip_cons_cons]
      rw [List.find?_cons_of_pos _ (by simp)]
      simp [deltaF_nan]
    · intro r hr
      have hsorted := yearsOf_sorted df
      have hmem : r.year ∈ yearsOf df :=
        (mem_yearsOf df r.year).mpr (List.mem_map_of_mem Row.year hr)
      rw [hys] at hmem hsorted
      obtain ⟨ha, _⟩ := List.sorted_cons.mp hsorted
      rcases List.mem_cons.mp hmem with h | h
      · omega
      · have := ha _ h; omega

/-- Witness for C3: on the concrete table `dfW` the earliest year 2020 yields
`"0.0%"` although its Profit sum is nonzero only in later years. -/
theorem get_per_year_change_first_year_witness :
    seriesGet (get_per_year_change Row.profit dfW Agg.sum) 2020 = some "0.0%" :=
  (get_per_year_change_first_year Row.profit dfW Agg.sum 2020 (by decide)).1

lemma dfZ_profit_series :
    get_per_year_change Row.profit dfZ Agg.sum = [(2020, "0.0%"), (2021, "0.0%")] := by
  norm_num +decide [get_per_year_change, yearsOf, yearAgg, aggCol, dfZ, mkRow,
    pctChangeList, pctChangeAux, pctChange, deltaF, fmtCell, pfNotNull, pfFmt1,
    pfFillNa0, pfMul100, fmtOneDec, round_eq, List.insertionSort, List.orderedInsert,
    List.filter_cons]

/-- C4 counterexample: on the table `dfZ` both yearly Profit sums are 0, so
the 2021 percentage-change computation is the non-numeric float division 0/0
(NaN); yet `get_per_year_change` outputs `"0.0%"` for 2021, not the literal
token `"NaN"` — `fillna(0)` runs before the formatting lambda, so the `'NaN'`
branch can never fire. -/
theorem get_per_year_change_nan_counterexample :
    pctChange (yearAgg Agg.sum Row.profit dfZ 2020) (yearAgg Agg.sum Row.profit dfZ 2021)
        = PFloat.nan
    ∧ seriesGet (get_per_year_change Row.profit dfZ Agg.sum) 2021 = some "0.0%"
    ∧ seriesGet (get_per_year_change Row.profit dfZ Agg.sum) 2021 ≠ some "NaN" := by
  refine ⟨?_, ?_, ?_⟩
  · norm_num [pctChange, yearAgg, aggCol, dfZ, mkRow, List.filter_cons]
  · rw [seriesGet, dfZ_profit_series]; decide
  · rw [seriesGet, dfZ_profit_series]; decide

/-- C4 amended: `get_per_year_change` never outputs the literal token `"NaN"`:
`fillna(0)` replaces every null before the formatting lambda runs, so a 0/0
base yields `"0.0%"` and a nonzero value over a zero base yields `"inf%"` or
`"-inf%"`; every produced delta string ends in `%`. -/
theorem get_per_year_change_never_nan
    (val : Row → ℚ) (df : List Row) (agg : Agg) (p : ℤ × String)
    (hp : p ∈ get_per_year_change val df agg) : p.2 ≠ "NaN" := by
  obtain ⟨x, _, hx⟩ := List.mem_map.mp (List.of_mem_zip hp).2
  have hnn : pfNotNull (pfFillNa0 (pfMul100 x)) = true := by
    cases pfMul100 x <;> rfl
  rw [← hx]
  unfold deltaF fmtCell
  rw [if_pos hnn]
  exact append_percent_ne _

/-- Witness for the amended C4 theorem at a concrete entry of the `dfW`
sales series. -/
theorem get_per_year_change_never_nan_witness :
    ((2020 : ℤ), "0.0%").2 ≠ "NaN" :=
  get_per_year_change_never_nan Row.sales dfW Agg.sum (2020, "0.0%")
    (by rw [dfW_sales_series]; decide)

/-!  Embedding of `src/transform.py` (the enricher). -/

/-- One spreadsheet cell of the enricher's tables. -/
inductive Cell where
  | str (s : String)
  | bool (b : Bool)
deriving DecidableEq

/-- One row of a sheet: the ordered list of (column name, cell) pairs. -/
abbrev XRow := List (String × Cell)

/-- Column read within a row (column names are unique in a DataFrame). -/
def getCell (r : XRow) (c : String) : Option Cell :=
  (r.find? (fun p => p.1 == c)).map (·.2)

/-- Column assignment `data[c] = v` at row level: replace the cell of an
existing column in place, or append a new column at the end. -/
def setCell : XRow → String → Cell → XRow
  | [], c, v => [(c, v)]
  | p :: r, c, v => if p.1 == c then (c, v) :: r else p :: setCell r c v

/-- Python `dict(...)` built from key/value pairs (later pairs win) read at a
key: model of the `mapping_manager[region]` lookup, `none` = `KeyError`. -/
def dictOf (m : List (String × String)) (k : String) : Option String :=
  (m.reverse.find? (fun p => p.1 == k)).map (·.2)

/-- Model of `data[dst] = data[src].apply(f)` where `f` itself may raise
(`none`): the whole assignment fails if the source column is missing in some
row or `f` raises on some cell. -/
def applyCol (df : List XRow) (src dst : String) (f : Cell → Option Cell) :
    Option (List XRow) :=
  df.mapM (fun r => ((getCell r src).bind f).map (fun v => setCell r dst v))

/-- Model of the enrichment of `src/transform.py`: first
`data["is_retention"] = data["Order ID"].apply(lambda oid: oid in list_retentions)`,
then `data["region_manager"] = data["Region"].apply(lambda reg: mapping_manager[reg])`. -/
def enrich (orders : List XRow) (rets : List Cell) (mapping : List (String × String)) :
    Option (List XRow) :=
  (applyCol orders "Order ID" "is_retention"
      (fun c => some (Cell.bool (rets.contains c)))).bind
    (fun t1 => applyCol t1 "Region" "region_manager"
      (fun c => match c with
        | Cell.str reg => (dictOf mapping reg).map Cell.str
        | _ => none))

lemma getCell_cons (p : String × Cell) (r : XRow) (c : String) :
    getCell (p :: r) c = if p.1 = c then some p.2 else getCell r c := by
  by_cases h : p.1 = c
  · rw [if_pos h]
    unfold getCell
    rw [List.find?_cons_of_pos _ (by simp [h])]
    rfl
  · rw [if_neg h]
    unfold getCell
    rw [List.find?_cons_of_neg _ (by simp [h])]

lemma getCell_setCell_same (r : XRow) (c : String) (v : Cell) :
    getCell (setCell r c v) c = some v := by
  induction r with
  | nil =>
    rw [show setCell [] c v = [(c, v)] from rfl, getCell_cons]
    simp
  | cons p r ih =>
    simp only [setCell]
    by_cases h : p.1 = c
    · rw [if_pos (by simp [h]), getCell_cons]
      simp
    · rw [if_neg (by simp [h]), getCell_cons, if_neg h]
      exact ih

lemma getCell_setCell_ne (r : XRow) (c d : String) (v : Cell) (h : c ≠ d) :
    getCell (setCell r d v) c = getCell r c := by
  induction r with
  | nil =>
    rw [show setCell [] d v = [(d, v)] from rfl, getCell_cons]
    rw [if_neg (by simpa using Ne.symm h)]
  | cons p r ih =>
    simp only [setCell]
    by_cases hp : p.1 = d
    · rw [if_pos (by simp [hp]), getCell_cons, getCell_cons]
      rw [if_neg (by simpa using Ne.symm h), if_neg (by rw [hp]; exact Ne.symm h)]
    · rw [if_neg (by simp [hp]), getCell_cons, getCell_cons]
      by_cases hc : p.1 = c
      · rw [if_pos hc, if_pos hc]
      · rw [if_neg hc, if_neg hc]
        exact ih

lemma setCell_cols (r : XRow) (c : String) (v : Cell) (h : c ∉ r.map Prod.fst) :
    (setCell r c v).map Prod.fst = r.map Prod.fst ++ [c] := by
  induction r with
  | nil => rfl
  | cons p r ih =>
    simp only [List.map_cons, List.mem_cons] at h
    push_neg at h
    simp only [setCell]
    rw [if_neg (by simpa using Ne.symm h.1)]
    simp only [List.map_cons, ih h.2, List.cons_append]

lemma applyCol_spec (src dst : String) (f : Cell → Option Cell) :
    ∀ (df out : List XRow), applyCol df src dst f = some out →
      df.length = out.length ∧
      ∀ i (h1 : i < df.length) (h2 : i < out.length),
        ∃ c v, getCell (df.get ⟨i, h1⟩) src = some c ∧ f c = some v ∧
          out.get ⟨i, h2⟩ = setCell (df.get ⟨i, h1⟩) dst v := by
  intro df
  induction df with
  | nil =>
    intro out h
    simp only [applyCol, List.mapM_nil, Option.pure_def, Option.some.injEq] at h
    subst h
    exact ⟨rfl, fun i h1 _ => absurd h1 (by simp at h1)⟩
  | cons r df ih =>
    intro out h
    simp only [applyCol, List.mapM_cons] at h ih
    cases hstep : ((getCell r src).bind f).map (fun v => setCell r dst v) with
    | none => rw [hstep] at h; simp at h
    | some b =>
      rw [hstep] at h
      cases hrest :
          df.mapM (fun r => ((getCell r src).bind f).map (fun v => setCell r dst v)) with
      | none => rw [hrest] at h; simp at h
      | some bs =>
        rw [hrest] at h
        simp at h
        subst h
        obtain ⟨hlen, hspec⟩ := ih bs hrest
        obtain ⟨v0, hv0, hb⟩ := Option.map_eq_some'.mp hstep
        obtain ⟨c, hc, hfc⟩ := Option.bind_eq_some.mp hv0
        refine ⟨by simpa using hlen, ?_⟩
        intro i h1 h2
        cases i with
        | zero => exact ⟨c, v0, hc, hfc, by rw [← hb]; rfl⟩
        | succ n =>
          have hn1 : n < df.length := by simpa using h1
          have hn2 : n < bs.length := by simpa using h2
          exact hspec n hn1 hn2

lemma applyCol_none (src dst : String) (f : Cell → Option Cell) :
    ∀ (df : List XRow) (r : XRow), r ∈ df → (getCell r src).bind f = none →
      applyCol df src dst f = none := by
  intro df
  induction df with
  | nil => intro r hr; exact absurd hr (List.not_mem_nil r)
  | cons a df ih =>
    intro r hr hnone
    simp only [applyCol, List.mapM_cons]
    rcases List.mem_cons.mp hr with h | h
    · subst h
      rw [hnone]
      rfl
    · have htail := ih r h hnone
      simp only [applyCol] at htail
      rw [htail]
      cases ((getCell a src).bind f).map (fun v => setCell a dst v) <;> rfl

/-- C2: for every order row processed by the enricher, the derived
`is_retention` cell is `true` iff the row's Order ID value appears among the
Returns sheet's order identifiers. -/
theorem enrich_is_retention
    (orders : List XRow) (rets : List Cell) (mapping : List (String × String))
    (out : List XRow) (h : enrich orders rets mapping = some out)
    (i : ℕ) (h1 : i < orders.length) (h2 : i < out.length)
    (oid : Cell) (hoid : getCell (orders.get ⟨i, h1⟩) "Order ID" = some oid) :
    getCell (out.get ⟨i, h2⟩) "is_retention" = some (Cell.bool (rets.contains oid))
      ∧ (rets.contains oid = true ↔ oid ∈ rets) := by
  obtain ⟨t1, ht1, hout⟩ := Option.bind_eq_some.mp h
  obtain ⟨hlen1, hspec1⟩ := applyCol_spec _ _ _ orders t1 ht1
  obtain ⟨hlen2, hspec2⟩ := applyCol_spec _ _ _ t1 out hout
  have h1t : i < t1.length := by omega
  obtain ⟨c, v, hc, hv, hset⟩ := hspec1 i h1 h1t
  obtain ⟨c2, v2, hc2, hv2, hset2⟩ := hspec2 i h1t h2
  have hcoid : c = oid := by
    have := hc.symm.trans hoid
    simpa using this
  subst hcoid
  have hvv : v = Cell.bool (rets.contains c) := by simpa using hv.symm
  refine ⟨?_, by simp⟩
  rw [hset2, getCell_setCell_ne _ _ _ _ (by decide), hset, ← hvv]
  exact getCell_setCell_same _ _ _

/-- Witness data for the enricher claims: one order in the West region whose
id is in the returns set. -/
def ordersW : List XRow :=
  [[("Order ID", Cell.str "o1"), ("Region", Cell.str "West")]]

/-- Witness returns set. -/
def retsW : List Cell := [Cell.str "o1"]

/-- Witness staff mapping. -/
def mappingW : List (String × String) := [("West", "Anna")]

/-- Enriched output row of the witness tables. -/
def outW : List XRow :=
  [[("Order ID", Cell.str "o1"), ("Region", Cell.str "West"),
    ("is_retention", Cell.bool true), ("region_manager", Cell.str "Anna")]]

lemma enrichW : enrich ordersW retsW mappingW = some outW := by
  decide

/-- Witness for C2 on the concrete one-row tables. -/
theorem enrich_is_retention_witness :
    getCell (outW.get ⟨0, by decide⟩) "is_retention"
        = some (Cell.bool (retsW.contains (Cell.str "o1")))
      ∧ (retsW.contains (Cell.str "o1") = true ↔ Cell.str "o1" ∈ retsW) :=
  enrich_is_retention ordersW retsW mappingW outW enrichW 0 (by decide) (by decide)
    (Cell.str "o1") (by decide)

/-- C6: a region absent from the staff mapping makes the enricher fail loudly
(`KeyError`, modelled as `none`), and whenever the enricher does produce an
output, every row's `region_manager` is exactly the mapping's entry for that
row's region — no default manager is ever assigned. -/
theorem enrich_region_fail_or_lookup
    (orders : List XRow) (rets : List Cell) (mapping : List (String × String)) :
    (∀ r ∈ orders, ∀ reg, getCell r "Region" = some (Cell.str reg) →
        dictOf mapping reg = none → enrich orders rets mapping = none)
    ∧ (∀ out, enrich orders rets mapping = some out →
        ∀ i (h1 : i < orders.length) (h2 : i < out.length),
          ∃ reg mgr, getCell (orders.get ⟨i, h1⟩) "Region" = some (Cell.str reg)
            ∧ dictOf mapping reg = some mgr
            ∧ getCell (out.get ⟨i, h2⟩) "region_manager" = some (Cell.str mgr)) := by
  constructor
  · intro r hr reg hreg hnone
    unfold enrich
    cases ht1 : applyCol orders "Order ID" "is_retention"
        (fun c => some (Cell.bool (rets.contains c))) with
    | none => rfl
    | some t1 =>
      obtain ⟨n, hn⟩ := List.mem_iff_get.mp hr
      obtain ⟨hlen, hspec⟩ := applyCol_spec _ _ _ orders t1 ht1
      have hnt : (n : ℕ) < t1.length := by omega
      obtain ⟨c, v, hc, hv, hset⟩ := hspec n n.isLt hnt
      have hn' : orders.get ⟨(n : ℕ), n.isLt⟩ = r := by
        rw [Fin.eta]; exact hn
      have hregt : (getCell (t1.get ⟨(n : ℕ), hnt⟩) "Region").bind
          (fun c => match c with
            | Cell.str reg => (dictOf mapping reg).map Cell.str
            | _ => none) = none := by
        rw [hset, getCell_setCell_ne _ _ _ _ (by decide), hn', hreg]
        simp [hnone]
      rw [Option.bind_eq_none]
      intro b hb
      have hbt : b = t1 := by simpa using hb.symm
      subst hbt
      exact applyCol_none _ _ _ b _ (b.get_mem _ hnt) hregt
  · intro out h i h1 h2
    obtain ⟨t1, ht1, hout⟩ := Option.bind_eq_some.mp h
    obtain ⟨hlen1, hspec1⟩ := applyCol_spec _ _ _ orders t1 ht1
    obtain ⟨hlen2, hspec2⟩ := applyCol_spec _ _ _ t1 out hout
    have h1t : i < t1.length := by omega
    obtain ⟨c, v, hc, hv, hset⟩ := hspec1 i h1 h1t
    obtain ⟨c2, v2, hc2, hv2, hset2⟩ := hspec2 i h1t h2
    cases c2 with
    | bool b => exact absurd hv2 (by simp)
    | str reg =>
      obtain ⟨mgr, hmgr, hv2m⟩ := Option.map_eq_some'.mp hv2
      refine ⟨reg, mgr, ?_, hmgr, ?_⟩
      · rw [hset, getCell_setCell_ne _ _ _ _ (by decide)] at hc2
        exact hc2
      · rw [hset2, ← hv2m]
        exact getCell_setCell_same _ _ _

/-- Order table whose region is absent from the witness staff mapping. -/
def ordersBad : List XRow :=
  [[("Order ID", Cell.str "o2"), ("Region", Cell.str "North")]]

/-- Witness for C6: the region `"North"` has no manager in `mappingW`, so the
enricher fails with a lookup error on `ordersBad`. -/
theorem enrich_region_fail_or_lookup_witness :
    enrich ordersBad retsW mappingW = none :=
  (enrich_region_fail_or_lookup ordersBad retsW mappingW).1
    [("Order ID", Cell.str "o2"), ("Region", Cell.str "North")]
    (by decide) "North" (by decide) (by decide)

/-- C8: the enriched table keeps exactly the original columns of every order
row, with unchanged values, and appends exactly the two derived columns
`is_retention` and `region_manager`, nothing else. -/
theorem enrich_columns
    (orders : List XRow) (rets : List Cell) (mapping : List (String × String))
    (out : List XRow) (h : enrich orders rets mapping = some out)
    (hfresh : ∀ r ∈ orders,
      "is_retention" ∉ r.map Prod.fst ∧ "region_manager" ∉ r.map Prod.fst) :
    orders.length = out.length ∧
    ∀ i (h1 : i < orders.length) (h2 : i < out.length),
      (out.get ⟨i, h2⟩).map Prod.fst
          = (orders.get ⟨i, h1⟩).map Prod.fst ++ ["is_retention", "region_manager"]
      ∧ ∀ c, c ≠ "is_retention" → c ≠ "region_manager" →
          getCell (out.get ⟨i, h2⟩) c = getCell (orders.get ⟨i, h1⟩) c := by
  obtain ⟨t1, ht1, hout⟩ := Option.bind_eq_some.mp h
  obtain ⟨hlen1, hspec1⟩ := applyCol_spec _ _ _ orders t1 ht1
  obtain ⟨hlen2, hspec2⟩ := applyCol_spec _ _ _ t1 out hout
  refine ⟨by omega, ?_⟩
  intro i h1 h2
  have h1t : i < t1.length := by omega
  obtain ⟨c, v, hc, hv, hset⟩ := hspec1 i h1 h1t
  obtain ⟨c2, v2, hc2, hv2, hset2⟩ := hspec2 i h1t h2
  obtain ⟨hfr1, hfr2⟩ := hfresh _ (orders.get_mem i h1)
  have hcols1 : (t1.get ⟨i, h1t⟩).map Prod.fst
      = (orders.get ⟨i, h1⟩).map Prod.fst ++ ["is_retention"] := by
    rw [hset]; exact setCell_cols _ _ _ hfr1
  have hfr2t : "region_manager" ∉ (t1.get ⟨i, h1t⟩).map Prod.fst := by
    rw [hcols1]
    simp only [List.mem_append, List.mem_singleton]
    push_neg
    exact ⟨hfr2, by decide⟩
  constructor
  · rw [hset2, setCell_cols _ _ _ hfr2t, hcols1, List.append_assoc]
    rfl
  · intro cname hcn1 hcn2
    rw [hset2, getCell_setCell_ne _ _ _ _ hcn2, hset, getCell_setCell_ne _ _ _ _ hcn1]

/-- Witness for C8 on the concrete one-row tables: the output columns are the
original two plus exactly the two derived ones. -/
theorem enrich_columns_witness :
    (outW.get ⟨0, by decide⟩).map Prod.fst
      = (ordersW.get ⟨0, by decide⟩).map Prod.fst ++ ["is_retention", "region_manager"] :=
  ((enrich_columns ordersW retsW mappingW outW enrichW (by decide)).2
    0 (by decide) (by decide)).1

/-- C5: filtering by a concrete year keeps exactly the rows whose derived year
column equals the selected year, and filtering by `All` returns the table
unchanged. -/
theorem filter_data_spec :
    (∀ (df : List Row) (y : ℤ) (r : Row),
      r ∈ filter_data df (YearSel.year y) ↔ r ∈ df ∧ r.year = y)
    ∧ ∀ df : List Row, filter_data df YearSel.all = df := by
  constructor
  · intro df y r
    simp [filter_data, List.mem_filter]
  · intro df
    rfl

/-- Witness for C5 on the concrete table `dfW`. -/
theorem filter_data_spec_witness :
    (mkRow "a" 2020 1 100 0 "P" ∈ filter_data dfW (YearSel.year 2020) ↔
      mkRow "a" 2020 1 100 0 "P" ∈ dfW ∧ (mkRow "a" 2020 1 100 0 "P").year = 2020)
    ∧ filter_data dfW YearSel.all = dfW :=
  ⟨filter_data_spec.1 dfW 2020 (mkRow "a" 2020 1 100 0 "P"), filter_data_spec.2 dfW⟩

/-- C9: every loaded row's `days to ship` equals the absolute difference in
days between Ship Date and Order Date, hence is non-negative even when the
Ship Date precedes the Order Date (the invariant is assumed, not enforced). -/
theorem days_to_ship_abs (raw : List RawRow) (raw0 : RawRow) (h : raw0 ∈ raw) :
    loadRow raw0 ∈ (load_data raw).1
    ∧ (load_data raw).1 = raw.map loadRow
    ∧ ((loadRow raw0).daysToShip : ℤ) = |raw0.shipDate.days - raw0.orderDate.days|
    ∧ (raw0.shipDate.days < raw0.orderDate.days →
        ((loadRow raw0).daysToShip : ℤ) = raw0.orderDate.days - raw0.shipDate.days)
    ∧ 0 ≤ ((loadRow raw0).daysToShip : ℤ) := by
  refine ⟨List.mem_map_of_mem loadRow h, rfl, ?_, ?_, ?_⟩
  · show (((raw0.shipDate.days - raw0.orderDate.days).natAbs : ℤ))
        = |raw0.shipDate.days - raw0.orderDate.days|
    rw [Int.abs_eq_natAbs]
  · intro hlt
    show (((raw0.shipDate.days - raw0.orderDate.days).natAbs : ℤ))
        = raw0.orderDate.days - raw0.shipDate.days
    omega
  · show (0 : ℤ) ≤ ((raw0.shipDate.days - raw0.orderDate.days).natAbs : ℤ)
    omega

/-- Raw order whose Ship Date precedes its Order Date by five days. -/
def rawBack : RawRow :=
  { orderId := "a", orderDate := ⟨105, 2020, 1⟩, shipDate := ⟨100, 2020, 1⟩,
    region := "West", segment := "Consumer", category := "Furniture",
    productName := "P", sales := 100, profit := 0 }

/-- Witness for C9 on a row whose Ship Date precedes its Order Date: the
derived value is still the (non-negative) absolute difference, 5. -/
theorem days_to_ship_abs_witness :
    loadRow rawBack ∈ (load_data [rawBack]).1
    ∧ (load_data [rawBack]).1 = [rawBack].map loadRow
    ∧ ((loadRow rawBack).daysToShip : ℤ) = |rawBack.shipDate.days - rawBack.orderDate.days|
    ∧ (rawBack.shipDate.days < rawBack.orderDate.days →
        ((loadRow rawBack).daysToShip : ℤ) = rawBack.orderDate.days - rawBack.shipDate.days)
    ∧ 0 ≤ ((loadRow rawBack).daysToShip : ℤ) :=
  days_to_ship_abs [rawBack] rawBack (by decide)

/-- Values shown by the three KPI cards of `create_kpi_metrics`. -/
structure Kpi where
  totalSales : ℚ
  totalProfit : ℚ
  totalOrders : ℕ
  salesChange : String
  profitChange : String
  ordersChange : String
deriving DecidableEq

/-- Model of `create_kpi_metrics` from `src/app.py`: headline numbers are
`df['Sales'].sum()`, `df['Profit'].sum()` and `df['Order ID'].nunique()`;
the delta strings come from the precomputed change series, `.iloc[-1]` for
`All` (which raises on an empty series, modelled as `none`) and
`.get(selected_year, "0%")` for a concrete year. -/
def create_kpi_metrics (df : List Row) (gs gp go : List (ℤ × String)) (sel : YearSel) :
    Option Kpi :=
  match sel with
  | .all =>
    match gs.getLast?, gp.getLast?, go.getLast? with
    | some s, some p, some o =>
      some { totalSales := (df.map Row.sales).sum
             totalProfit := (df.map Row.profit).sum
             totalOrders := (df.map Row.orderId).dedup.length
             salesChange := s.2
             profitChange := p.2
             ordersChange := o.2 }
    | _, _, _ => none
  | .year y =>
    some { totalSales := (df.map Row.sales).sum
           totalProfit := (df.map Row.profit).sum
           totalOrders := (df.map Row.orderId).dedup.length
           salesChange := (seriesGet gs y).getD "0%"
           profitChange := (seriesGet gp y).getD "0%"
           ordersChange := (seriesGet go y).getD "0%" }

/-- C10: the Orders KPI headline is the number of distinct Order ID values of
the (possibly filtered) table — duplicate line items counted once — while the
orders-change series shown beside it is built with the `count` aggregation,
whose per-year value is the total row count of the year group. -/
theorem kpi_orders_nunique_vs_count (raw : List RawRow) (sel : YearSel) (k : Kpi)
    (h : create_kpi_metrics (load_data raw).1 (load_data raw).2.1 (load_data raw).2.2.1
          (load_data raw).2.2.2 sel = some k) :
    k.totalOrders = ((load_data raw).1.map Row.orderId).toFinset.card
    ∧ (load_data raw).2.2.2 = get_per_year_change (fun _ => 0) ((load_data raw).1) Agg.count
    ∧ ∀ y : ℤ, yearAgg Agg.count (fun _ => 0) ((load_data raw).1) y
        = (((load_data raw).1.filter (fun r => r.year == y)).length : ℚ) := by
  refine ⟨?_, rfl, fun y => rfl⟩
  rw [List.card_toFinset]
  cases sel with
  | year y =>
    simp only [create_kpi_metrics, Option.some.injEq] at h
    rw [← h]
  | all =>
    simp only [create_kpi_metrics] at h
    split at h
    · simp only [Option.some.injEq] at h
      rw [← h]
    · exact absurd h (by simp)

/-- Raw table with two line items of the same order "a" in 2020 and one order
"b" in 2021: 3 rows but only 2 distinct Order ID values. -/
def rawK : List RawRow :=
  [{ orderId := "a", orderDate := ⟨100, 2020, 1⟩, shipDate := ⟨103, 2020, 1⟩,
     region := "West", segment := "Consumer", category := "Furniture",
     productName := "P", sales := 60, profit := 1 },
   { orderId := "a", orderDate := ⟨110, 2020, 1⟩, shipDate := ⟨113, 2020, 1⟩,
     region := "West", segment := "Consumer", category := "Furniture",
     productName := "P", sales := 40, profit := 1 },
   { orderId := "b", orderDate := ⟨500, 2021, 2⟩, shipDate := ⟨503, 2021, 2⟩,
     region := "West", segment := "Consumer", category := "Furniture",
     productName := "Q", sales := 150, profit := 1 }]

/-- KPI record produced on `rawK` for the 2021 selection. -/
def kpiK : Kpi :=
  { totalSales := 250, totalProfit := 3, totalOrders := 2,
    salesChange := "50.0%", profitChange := "-50.0%", ordersChange := "-50.0%" }

lemma create_kpi_metrics_rawK :
    create_kpi_metrics (load_data rawK).1 (load_data rawK).2.1 (load_data rawK).2.2.1
        (load_data rawK).2.2.2 (YearSel.year 2021) = some kpiK := by
  norm_num +decide [create_kpi_metrics, kpiK, load_data, loadRow, rawK, seriesGet,
    get_per_year_change, yearsOf, yearAgg, aggCol,
    pctChangeList, pctChangeAux, pctChange, deltaF, fmtCell, pfNotNull, pfFmt1,
    pfFillNa0, pfMul100, fmtOneDec, round_eq, List.insertionSort, List.orderedInsert,
    List.filter_cons, List.find?]

/-- Witness for C10: on `rawK` the Orders headline is 2 (distinct ids), not
the 3 rows counted per year by the change series. -/
theorem kpi_orders_nunique_vs_count_witness :
    kpiK.totalOrders = (((load_data rawK).1).map Row.orderId).toFinset.card :=
  (kpi_orders_nunique_vs_count rawK (YearSel.year 2021) kpiK create_kpi_metrics_rawK).1

/-!  Chart-data shaping functions of `src/app.py`. -/

/-- Month abbreviation, `calendar.month_abbr` / `strftime('%b')`. -/
def monthAbbr : ℕ → String
  | 1 => "Jan" | 2 => "Feb" | 3 => "Mar" | 4 => "Apr" | 5 => "May" | 6 => "Jun"
  | 7 => "Jul" | 8 => "Aug" | 9 => "Sep" | 10 => "Oct" | 11 => "Nov" | 12 => "Dec"
  | _ => ""

/-- The two in-place column assignments at the top of
`create_monthly_sales_trend`:
`df['Month'] = pd.to_datetime(df['Order Date']).dt.strftime('%b')` and
`df['Month_num'] = pd.to_datetime(df['Order Date']).dt.month`. -/
def addMonthCols (df : List Row) : List Row :=
  df.map (fun r => { r with month := some (monthAbbr r.orderDate.month),
                            monthNum := some r.orderDate.month })

/-- Ordering used by `sort_values(['year', 'Month_num'])`. -/
def ymLe (a b : ℤ × ℕ) : Prop := a.1 < b.1 ∨ (a.1 = b.1 ∧ a.2 ≤ b.2)

instance : DecidableRel ymLe := fun a b =>
  inferInstanceAs (Decidable (a.1 < b.1 ∨ (a.1 = b.1 ∧ a.2 ≤ b.2)))

/-- The fixed year → line-color palette of `create_monthly_sales_trend`;
`.get(year, '#000000')` supplies the default for unknown years. -/
def yearColorPalette (y : ℤ) : Option String :=
  if y = 2020 then some "#005C53"
  else if y = 2021 then some "#9FC131"
  else if y = 2022 then some "#DBF227"
  else if y = 2023 then some "#D6FF79"
  else none

/-- One plotted line of the monthly trend chart. -/
structure Trace where
  name : String
  xs : List String
  ys : List ℚ
  color : String
deriving DecidableEq

/-- Distinct (year, month) group keys of
`df.groupby(['year', 'Month', 'Month_num'])`, in the final
`sort_values(['year', 'Month_num'])` order (the Month string is determined by
Month_num, so the keys are the distinct (year, month number) pairs). -/
def monthKeys (df2 : List Row) : List (ℤ × ℕ) :=
  ((df2.map (fun r => (r.year, r.orderDate.month))).dedup).insertionSort ymLe

/-- The `monthly_sales` table: per (year, Month, Month_num) the Sales sum. -/
def monthlySales (df2 : List Row) : List (ℤ × String × ℕ × ℚ) :=
  (monthKeys df2).map (fun k =>
    (k.1, monthAbbr k.2, k.2,
      ((df2.filter (fun r => r.year == k.1 && r.orderDate.month == k.2)).map Row.sales).sum))

/-- Model of `create_monthly_sales_trend` from `src/app.py`: the shaped chart
data (one trace per year) together with the post-state of the input table,
which the function mutates by writing the Month / Month_num columns. -/
def create_monthly_sales_trend (df : List Row) : List Trace × List Row :=
  let df2 := addMonthCols df
  let ms := monthlySales df2
  ((ms.map (·.1)).dedup.map (fun y =>
    { name := toString y
      xs := (ms.filter (fun g => g.1 == y)).map (fun g => g.2.1)
      ys := (ms.filter (fun g => g.1 == y)).map (fun g => g.2.2.2)
      color := (yearColorPalette y).getD "#000000" }),
   df2)

/-- Descending order on summed metric values, `Series.nlargest`. -/
def valGe (a b : String × ℚ) : Prop := b.2 ≤ a.2

instance : DecidableRel valGe := fun a b => inferInstanceAs (Decidable (b.2 ≤ a.2))

/-- Model of `create_top_products_chart` from `src/app.py`:
`df.groupby('Product Name')[metric].sum().nlargest(10)` — group keys sorted
ascending, then the ten largest sums — together with the (unchanged) input
table. -/
def create_top_products_chart (df : List Row) (val : Row → ℚ) :
    List (String × ℚ) × List Row :=
  (((((df.map Row.productName).dedup).insertionSort (· ≤ ·)).map
      (fun n => (n, ((df.filter (fun r => r.productName == n)).map val).sum))).insertionSort
        valGe |>.take 10,
   df)

/-- Erase the two derived month columns of a row. -/
def stripMonth (r : Row) : Row := { r with month := none, monthNum := none }

/-- C7 counterexample: `create_monthly_sales_trend` does not leave its input
table unchanged — it adds the Month and Month_num columns in place, so the
post-state of the input differs from the input on a one-row table. -/
theorem create_monthly_sales_trend_mutates :
    (create_monthly_sales_trend [mkRow "a" 2020 3 10 1 "Chair"]).2
      ≠ [mkRow "a" 2020 3 10 1 "Chair"] := by
  decide

/-- C7 amended: the shaping functions are deterministic functions of their
input, and `create_top_products_chart` leaves the input table unchanged; but
`create_monthly_sales_trend` writes the derived Month / Month_num columns
into its input table in place, leaving every other column unchanged. -/
theorem chart_shaping_frame :
    (∀ df : List Row, (create_monthly_sales_trend df).2
        = df.map (fun r => { r with month := some (monthAbbr r.orderDate.month),
                                    monthNum := some r.orderDate.month }))
    ∧ (∀ df : List Row,
        ((create_monthly_sales_trend df).2).map stripMonth = df.map stripMonth)
    ∧ ∀ (df : List Row) (val : Row → ℚ), (create_top_products_chart df val).2 = df := by
  refine ⟨fun df => rfl, fun df => ?_, fun df val => rfl⟩
  show (df.map (fun r => { r with month := some (monthAbbr r.orderDate.month),
                                  monthNum := some r.orderDate.month })).map stripMonth
      = df.map stripMonth
  rw [List.map_map]
  rfl
